import Mathlib

/-
Verification development for the Discovery-kerchunk-timeseries repository
(src/kerchunk_netcdf4.py).  The manifest ("zarr store") data model, the
reference-filtering functions, the metadata injection, and the manifest
stacking are embedded shallowly; values held in a manifest are modelled by
the Ref type below, and Python dictionaries by association lists with
unique keys whose insertion order is the list order.
-/

namespace AsfKerchunk

/-- References held in a manifest: either an inline literal value or a
remote byte range (source url, offset, length). -/
inductive Ref where
  | inline (v : String)
  | remote (url : String) (off : Nat) (len : Nat)
deriving DecidableEq, Repr

/-- The refs mapping of a zarr store: key to reference, unique keys,
insertion order preserved. -/
abbrev Refs := List (String × Ref)

deriving instance DecidableEq for Except

/-- Model of Python str.startswith on the character sequences. -/
def pyStartsWith (k p : String) : Bool := p.data.isPrefixOf k.data

/-- Outcome of the loop body over a snapshot key: Python str.startswith
against any element of the list (the keep flag computation; the source
writes this as a for loop setting keep to True on a match). -/
def matchesAny (ps : List String) (k : String) : Bool :=
  ps.any (fun p => pyStartsWith k p)

/-- Model of Python dict.pop(k) without a default: if the key is present
the entry is removed (none signals the KeyError raised on a missing key). -/
def popKey (refs : Refs) (k : String) : Option Refs :=
  if refs.any (fun q => q.1 == k) then some (refs.filter (fun q => !(q.1 == k))) else none

/-- The module whitelist _fields_whitelist: only keys with these string
starts are kept (src lines 13-29). -/
def _fields_whitelist : List String :=
  [".zattrs", ".zgroup", "bytes", "corrections", "identification", "metadata",
   "netcdf_uri", "product_version", "reference_datetime", "secondary_datetime",
   "short_wavelength_displacement", "source_file_name", "spatial_ref", "x", "y"]

/-- The module blacklist _fields_blacklist (src lines 33-40). -/
def _fields_blacklist : List String :=
  ["metadata/reference_orbit/position", "metadata/reference_orbit/time",
   "metadata/reference_orbit/velocity", "metadata/secondary_orbit/position",
   "metadata/secondary_orbit/time", "metadata/secondary_orbit/velocity"]

/-- The blacklist loop of the preprocessor made by _drop_all_and_keep
(src lines 234-236): each matching drop field pops key k again; the error
value carries the state of the refs dict when the KeyError is raised. -/
def dropPass (k : String) : List String → Refs → Except Refs Refs
  | [], r => .ok r
  | p :: ps, r =>
    if pyStartsWith k p then
      match popKey r k with
      | some r2 => dropPass k ps r2
      | none => .error r
    else dropPass k ps r

/-- One iteration of the preprocessor loop of _drop_all_and_keep over
snapshot key k (src lines 227-236): compute the keep flag, pop the key if
it is not kept, then run the blacklist loop. -/
def stepKey (fields_to_keep fields_to_drop : List String) (k : String) (r : Refs) :
    Except Refs Refs :=
  if matchesAny fields_to_keep k then dropPass k fields_to_drop r
  else
    match popKey r k with
    | some r2 => dropPass k fields_to_drop r2
    | none => .error r

/-- The full loop of the preprocessor of _drop_all_and_keep over the
snapshot list(refs) (src line 226); stops at the first KeyError. -/
def filterGo (fields_to_keep fields_to_drop : List String) :
    List String → Refs → Except Refs Refs
  | [], r => .ok r
  | k :: ks, r =>
    match stepKey fields_to_keep fields_to_drop k r with
    | .ok r2 => filterGo fields_to_keep fields_to_drop ks r2
    | .error r2 => .error r2

/-- Model of the preprocessor returned by _drop_all_and_keep (src lines
222-239): iterate over a snapshot of the keys, drop keys matching no keep
field, then pop the key once more for every matching drop field.  An
error value carries the partially mutated refs dict left behind by the
KeyError that Python raises when dict.pop misses. -/
def _drop_all_and_keep (fields_to_keep fields_to_drop : List String) (refs : Refs) :
    Except Refs Refs :=
  filterGo fields_to_keep fields_to_drop (refs.map (fun q => q.1)) refs

/-- The refs dict an invocation leaves behind, on the normal path and on
the KeyError path alike (Python mutates the dict in place, so the caller
observes this state in both cases). -/
def runState : Except Refs Refs → Refs
  | .ok r => r
  | .error r => r

/-- A zarr store dictionary as consumed by filter_unused_references: the
refs mapping plus every other top level entry of the store, which the
function never touches. -/
structure Store where
  refs : Refs
  extra : List (String × String)
deriving DecidableEq, Repr

/-- The blacklist loop of filter_unused_references (src lines 192-194),
written out separately because the source duplicates the loop code rather
than calling the preprocessor. -/
def fuDrop (k : String) : List String → Refs → Except Refs Refs
  | [], r => .ok r
  | p :: ps, r =>
    if pyStartsWith k p then
      match popKey r k with
      | some r2 => fuDrop k ps r2
      | none => .error r
    else fuDrop k ps r

/-- One iteration of the filter_unused_references loop over snapshot key k
(src lines 185-194), against the module whitelist and blacklist. -/
def fuStep (k : String) (r : Refs) : Except Refs Refs :=
  if matchesAny _fields_whitelist k then fuDrop k _fields_blacklist r
  else
    match popKey r k with
    | some r2 => fuDrop k _fields_blacklist r2
    | none => .error r

/-- The full loop of filter_unused_references over list(refs) (src line
184). -/
def fuGo : List String → Refs → Except Refs Refs
  | [], r => .ok r
  | k :: ks, r =>
    match fuStep k r with
    | .ok r2 => fuGo ks r2
    | .error r2 => .error r2

/-- Model of filter_unused_references (src lines 178-194): fetches the
refs mapping of the store and runs the duplicated filtering loop on it;
everything else in the store dictionary is left as is. -/
def filter_unused_references (data : Store) : Except Store Store :=
  match fuGo (data.refs.map (fun q => q.1)) data.refs with
  | .ok r => .ok { data with refs := r }
  | .error r => .error { data with refs := r }

/-- A key survives filtering exactly when it matches some keep field and
no drop field (the FilterPolicy invariant of the spec). -/
def keptKey (fields_to_keep fields_to_drop : List String) (k : String) : Bool :=
  matchesAny fields_to_keep k && !(matchesAny fields_to_drop k)

/-- Claim C1.  The claim states that for every manifest and every
FilterPolicy a key survives filtering exactly when it matches a keep
field and no drop field, independently of processing order.  The code
violates this: with keep fields [] and drop field "z" on the manifest
with keys "zz" then "qq", the run raises KeyError (the key "zz" is
popped by the whitelist pass and popped again by the blacklist pass) and
leaves the key "qq" in the refs dict, although "qq" matches no keep
field and so ought to have been removed. -/
theorem claim_C1_filter_invariant_bug :
    _drop_all_and_keep [] ["z"] [("zz", Ref.inline "a"), ("qq", Ref.inline "b")] =
      .error [("qq", Ref.inline "b")] ∧
    matchesAny ([] : List String) "qq" = false := by
  decide

/-- Claim C3.  The claim states filtering never raises, and that a policy
whose keep fields match no key simply removes every key.  The code
violates this: with keep fields [] and drop field "m" on a manifest with
the single key "m1", the key is popped by the whitelist pass and popped
again by the blacklist pass, which raises KeyError instead of returning
the emptied manifest. -/
theorem claim_C3_filter_raises :
    _drop_all_and_keep [] ["m"] [("m1", Ref.inline "v")] = .error [] := by
  decide

lemma popKey_some {r r2 : Refs} {k : String} (h : popKey r k = some r2) :
    r2 = r.filter (fun q => !(q.1 == k)) := by
  unfold popKey at h
  split at h
  · exact (Option.some.injEq _ _).mp h |>.symm
  · exact absurd h (by simp)

lemma dropPass_nomatch {k : String} :
    ∀ (ds : List String) (r : Refs), matchesAny ds k = false → dropPass k ds r = .ok r
  | [], _, _ => rfl
  | p :: ps, r, h => by
      simp only [matchesAny, List.any_cons, Bool.or_eq_false_iff] at h
      simp only [dropPass, h.1, Bool.false_eq_true, if_false]
      exact dropPass_nomatch ps r (by simpa [matchesAny] using h.2)

lemma filter_self_filter (r : Refs) (f : String × Ref → Bool) :
    (r.filter f).filter f = r.filter f := by
  rw [List.filter_filter]
  exact List.filter_congr (fun q _ => by cases f q <;> simp)

lemma dropPass_ok {ds : List String} {k : String} {r r2 : Refs}
    (h : dropPass k ds r = .ok r2) :
    (matchesAny ds k = false ∧ r2 = r) ∨
    (matchesAny ds k = true ∧ r2 = r.filter (fun q => !(q.1 == k))) := by
  induction ds generalizing r with
  | nil =>
      left
      exact ⟨rfl, (Except.ok.inj h).symm⟩
  | cons p ps ih =>
      by_cases hp : pyStartsWith k p = true
      · simp only [dropPass, hp, if_true] at h
        cases hpop : popKey r k with
        | none => rw [hpop] at h; exact absurd h (by simp)
        | some r1 =>
            rw [hpop] at h
            have hr1 := popKey_some hpop
            right
            refine ⟨by simp [matchesAny, hp], ?_⟩
            rcases ih h with ⟨_, h2⟩ | ⟨_, h2⟩
            · rw [h2, hr1]
            · rw [h2, hr1, filter_self_filter]
      · simp only [dropPass, hp, if_false] at h
        rcases ih h with ⟨h1, h2⟩ | ⟨h1, h2⟩
        · left
          refine ⟨?_, h2⟩
          simp only [matchesAny, List.any_cons, Bool.or_eq_false_iff]
          exact ⟨by simpa using hp, by simpa [matchesAny] using h1⟩
        · right
          exact ⟨by simp [matchesAny] at h1 ⊢; exact Or.inr h1, h2⟩

lemma stepKey_ok {fk fd : List String} {k : String} {r r2 : Refs}
    (h : stepKey fk fd k r = .ok r2) :
    r2 = if keptKey fk fd k then r else r.filter (fun q => !(q.1 == k)) := by
  by_cases hk : matchesAny fk k = true
  · simp only [stepKey, hk, if_true] at h
    rcases dropPass_ok h with ⟨h1, h2⟩ | ⟨h1, h2⟩
    · rw [h2]; simp [keptKey, hk, h1]
    · rw [h2]; simp [keptKey, hk, h1]
  · simp only [stepKey, hk, if_false] at h
    have hkept : keptKey fk fd k = false := by
      simp [keptKey, Bool.eq_false_iff.mpr hk]
    cases hpop : popKey r k with
    | none => rw [hpop] at h; exact absurd h (by simp)
    | some r1 =>
        rw [hpop] at h
        have hr1 := popKey_some hpop
        rcases dropPass_ok h with ⟨_, h2⟩ | ⟨_, h2⟩
        · rw [h2, hr1, hkept]; simp
        · rw [h2, hr1, filter_self_filter, hkept]; simp

lemma filterGo_ok {fk fd : List String} {ks : List String} {r r2 : Refs}
    (h : filterGo fk fd ks r = .ok r2) :
    r2 = r.filter (fun q => keptKey fk fd q.1 || !(ks.any (fun k2 => q.1 == k2))) := by
  induction ks generalizing r with
  | nil =>
      simp only [filterGo] at h
      rw [← Except.ok.inj h]
      simp
  | cons k ks ih =>
      simp only [filterGo] at h
      cases hstep : stepKey fk fd k r with
      | error r1 => rw [hstep] at h; exact absurd h (by simp)
      | ok r1 =>
          rw [hstep] at h
          have hr1 := stepKey_ok hstep
          rw [ih h]
          by_cases hkept : keptKey fk fd k = true
          · rw [hr1, if_pos hkept]
            refine List.filter_congr (fun q _ => ?_)
            by_cases hq : q.1 = k
            · have hqb : (q.1 == k) = true := by simp [hq]
              simp [List.any_cons, hqb, hq, hkept]
            · have hqb : (q.1 == k) = false := by simp [hq]
              simp [List.any_cons, hqb]
          · have hkb : keptKey fk fd k = false := Bool.not_eq_true _ |>.mp hkept
            rw [hr1, if_neg hkept, List.filter_filter]
            refine List.filter_congr (fun q _ => ?_)
            by_cases hq : q.1 = k
            · have hqb : (q.1 == k) = true := by simp [hq]
              simp [List.any_cons, hqb, hq, hkb]
            · have hqb : (q.1 == k) = false := by simp [hq]
              simp [List.any_cons, hqb]

lemma drop_all_and_keep_ok {fk fd : List String} {refs out : Refs}
    (h : _drop_all_and_keep fk fd refs = .ok out) :
    out = refs.filter (fun q => keptKey fk fd q.1) := by
  rw [filterGo_ok h]
  refine List.filter_congr (fun q hq => ?_)
  have : (refs.map (fun q => q.1)).any (fun k2 => q.1 == k2) = true := by
    simp only [List.any_eq_true]
    exact ⟨q.1, List.mem_map.mpr ⟨q, hq, rfl⟩, by simp⟩
  simp [this]

lemma filterGo_all_kept {fk fd : List String} {ks : List String}
    (hks : ∀ k ∈ ks, keptKey fk fd k = true) (r : Refs) :
    filterGo fk fd ks r = .ok r := by
  induction ks with
  | nil => rfl
  | cons k ks ih =>
      have hk := hks k (List.mem_cons_self k ks)
      have hkeep : matchesAny fk k = true := by
        have := hk; simp only [keptKey, Bool.and_eq_true] at this; exact this.1
      have hdrop : matchesAny fd k = false := by
        have := hk; simp only [keptKey, Bool.and_eq_true, Bool.not_eq_true'] at this
        exact this.2
      simp only [filterGo, stepKey, hkeep, if_true, dropPass_nomatch fd r hdrop]
      exact ih (fun k2 hk2 => hks k2 (List.mem_cons_of_mem k hk2))

/-- Claim C8 counterexample.  The claim that filtering is idempotent for
every policy fails: with keep fields [] and drop field "z", one
application to the manifest with keys "zz" then "qq" raises KeyError and
leaves the dict holding only "qq"; a second application on that dict
removes "qq", so the result of applying twice differs from applying
once. -/
theorem claim_C8_counterexample :
    runState (_drop_all_and_keep [] ["z"]
        (runState (_drop_all_and_keep [] ["z"]
          [("zz", Ref.inline "a"), ("qq", Ref.inline "b")]))) ≠
      runState (_drop_all_and_keep [] ["z"]
        [("zz", Ref.inline "a"), ("qq", Ref.inline "b")]) := by
  decide

/-- Claim C8, amended: whenever an application of the filtering
preprocessor completes without error, applying it again with the same
policy succeeds and returns the very same refs mapping, so filtering is
idempotent on every run that completes. -/
theorem claim_C8_idempotent (fk fd : List String) (refs out : Refs)
    (h : _drop_all_and_keep fk fd refs = .ok out) :
    _drop_all_and_keep fk fd out = .ok out := by
  have hout := drop_all_and_keep_ok h
  unfold _drop_all_and_keep
  refine filterGo_all_kept (fun k hk => ?_) out
  obtain ⟨q, hq, hqk⟩ := List.mem_map.mp hk
  rw [hout] at hq
  rw [← hqk]
  exact (List.mem_filter.mp hq).2

/-- Claim C8 witness: a concrete successful run on which idempotence is
obtained from the theorem. -/
theorem claim_C8_witness :
    _drop_all_and_keep ["a"] ["metadata"] [("ab", Ref.inline "v")] =
      .ok [("ab", Ref.inline "v")] := by
  exact claim_C8_idempotent ["a"] ["metadata"] [("ab", Ref.inline "v"), ("zz", Ref.inline "w")]
    [("ab", Ref.inline "v")] (by decide)

lemma fuDrop_eq (k : String) (ds : List String) (r : Refs) :
    fuDrop k ds r = dropPass k ds r := by
  induction ds generalizing r with
  | nil => rfl
  | cons p ps ih =>
      simp only [fuDrop, dropPass]
      by_cases hp : pyStartsWith k p = true
      · simp only [hp, if_true]
        cases popKey r k with
        | none => rfl
        | some r1 => exact ih r1
      · simp only [hp, if_false]
        exact ih r

lemma fuStep_eq (k : String) (r : Refs) :
    fuStep k r = stepKey _fields_whitelist _fields_blacklist k r := by
  simp only [fuStep, stepKey]
  by_cases hk : matchesAny _fields_whitelist k = true
  · simp only [hk, if_true, fuDrop_eq]
  · simp only [hk, if_false]
    cases popKey r k with
    | none => rfl
    | some r1 => exact fuDrop_eq k _ r1

lemma fuGo_eq (ks : List String) (r : Refs) :
    fuGo ks r = filterGo _fields_whitelist _fields_blacklist ks r := by
  induction ks generalizing r with
  | nil => rfl
  | cons k ks ih =>
      simp only [fuGo, filterGo, fuStep_eq]
      cases stepKey _fields_whitelist _fields_blacklist k r with
      | ok r1 => exact ih r1
      | error r1 => rfl

/-- Claim C9: the standalone manifest filter and the stacker
preprocessing filter are one and the same mechanism.  For every store,
filter_unused_references behaves exactly as the preprocessor produced by
_drop_all_and_keep applied with the module whitelist and blacklist to the
refs mapping of the store: the refs left behind agree, on the normal path
and on the error path alike. -/
theorem claim_C9_same_mechanism (data : Store) :
    filter_unused_references data =
      match _drop_all_and_keep _fields_whitelist _fields_blacklist data.refs with
      | .ok r => .ok { data with refs := r }
      | .error r => .error { data with refs := r } := by
  unfold filter_unused_references _drop_all_and_keep
  rw [fuGo_eq]

/-- The store a call to filter_unused_references leaves behind, on the
normal path and on the KeyError path alike. -/
def storeState : Except Store Store → Store
  | .ok s => s
  | .error s => s

lemma dropPass_state_sublist (k : String) (ds : List String) (r : Refs) :
    (runState (dropPass k ds r)).Sublist r := by
  induction ds generalizing r with
  | nil => exact List.Sublist.refl r
  | cons p ps ih =>
      simp only [dropPass]
      by_cases hp : pyStartsWith k p = true
      · simp only [hp, if_true]
        cases hpop : popKey r k with
        | none => exact List.Sublist.refl r
        | some r1 =>
            rw [popKey_some hpop]
            exact (ih _).trans (List.filter_sublist r)
      · simp only [hp, if_false]
        exact ih r

lemma stepKey_state_sublist (fk fd : List String) (k : String) (r : Refs) :
    (runState (stepKey fk fd k r)).Sublist r := by
  simp only [stepKey]
  by_cases hk : matchesAny fk k = true
  · simp only [hk, if_true]
    exact dropPass_state_sublist k fd r
  · simp only [hk, if_false]
    cases hpop : popKey r k with
    | none => exact List.Sublist.refl r
    | some r1 =>
        rw [popKey_some hpop]
        exact (dropPass_state_sublist k fd _).trans (List.filter_sublist r)

lemma filterGo_state_sublist (fk fd : List String) (ks : List String) (r : Refs) :
    (runState (filterGo fk fd ks r)).Sublist r := by
  induction ks generalizing r with
  | nil => exact List.Sublist.refl r
  | cons k ks ih =>
      simp only [filterGo]
      cases hstep : stepKey fk fd k r with
      | ok r1 =>
          have h1 : r1.Sublist r := by
            have := stepKey_state_sublist fk fd k r
            rw [hstep] at this
            exact this
          exact (ih r1).trans h1
      | error r1 =>
          have := stepKey_state_sublist fk fd k r
          rw [hstep] at this
          exact this

/-- Claim C10: filtering only ever removes entries.  For every policy
and refs mapping, the refs left behind by the preprocessor of
_drop_all_and_keep form a sublist of the original mapping (no key is
added, every retained key still carries its original reference, order
preserved) even on the KeyError path, and filter_unused_references leaves
every part of the store outside the refs mapping unchanged. -/
theorem claim_C10_frame :
    (∀ (fk fd : List String) (refs : Refs),
        (runState (_drop_all_and_keep fk fd refs)).Sublist refs) ∧
    (∀ data : Store,
        (storeState (filter_unused_references data)).refs.Sublist data.refs ∧
        (storeState (filter_unused_references data)).extra = data.extra) := by
  constructor
  · intro fk fd refs
    exact filterGo_state_sublist fk fd _ refs
  · intro data
    unfold filter_unused_references
    have h := filterGo_state_sublist _fields_whitelist _fields_blacklist
      (data.refs.map (fun q => q.1)) data.refs
    rw [← fuGo_eq] at h
    cases hgo : fuGo (data.refs.map (fun q => q.1)) data.refs with
    | ok r =>
        rw [hgo] at h
        exact ⟨h, rfl⟩
    | error r =>
        rw [hgo] at h
        exact ⟨h, rfl⟩

/-- A scalar value stored for an injected provenance variable: a string,
a numeric byte count, or a datetime64 nanosecond timestamp. -/
inductive ZVal where
  | vstr (s : String)
  | vnum (n : Int)
  | vtime (n : Int)
deriving DecidableEq, Repr

/-- A dataset inside a zarr group: its scalar payload, the numpy dtype it
was created with, and its attributes; the only attribute the code ever
writes is _ARRAY_DIMENSIONS, whose value is a list of dimension names. -/
structure ZEntry where
  data : ZVal
  dtype : String
  attrs : List (String × List String)
deriving DecidableEq, Repr

/-- A zarr hierarchy group, modelled as its mapping from dataset key to
dataset. -/
abbrev ZGroup := List (String × ZEntry)

/-- Reading a dataset back from the group by key. -/
def lookupZ (g : ZGroup) (k : String) : Option ZEntry :=
  (g.find? (fun p => p.1 == k)).map (fun p => p.2)

/-- The collision failure of metadata injection (spec section 4.2): zarr
create_dataset raises ContainsArrayError when the key already exists,
which the spec surfaces as InjectionError. -/
inductive InjectionError where
  | collision (key : String)
deriving DecidableEq, Repr

/-- Model of zarr create_dataset: bind the key to a fresh dataset holding
the data and the dtype, with no attributes yet; a pre-existing binding of
the key makes the call fail (zarr ContainsArrayError, the InjectionError
of the spec). -/
def createDataset (g : ZGroup) (k : String) (d : ZVal) (dt : String) :
    Except InjectionError ZGroup :=
  if g.any (fun p => p.1 == k) then .error (.collision k)
  else .ok ((k, { data := d, dtype := dt, attrs := [] }) :: g)

/-- Model of the attribute assignment on store at the key (the Python
line writing into store attrs): update the dataset bound to the key,
replacing any previous binding of the attribute name. -/
def setAttr (g : ZGroup) (k : String) (a : String) (v : List String) : ZGroup :=
  g.map (fun p =>
    if p.1 == k then
      (p.1, { p.2 with attrs := (a, v) :: p.2.attrs.filter (fun q => !(q.1 == a)) })
    else p)

/-- Model of _add_data_variable (src lines 198-219): create the dataset
at the key, then add the _ARRAY_DIMENSIONS attribute holding the empty
list, marking the variable zero dimensional for xarray; a collision in
create_dataset propagates. -/
def _add_data_variable (store : ZGroup) (key : String) (data : ZVal) (dtype : String) :
    Except InjectionError ZGroup :=
  match createDataset store key data dtype with
  | .error e => .error e
  | .ok s => .ok (setAttr s key "_ARRAY_DIMENSIONS" [])

/-- Model of the metadata injection performed by generate_kerchunk_file_store
(src lines 96-123).  The parameter h5Store is the store produced by the
external chunk index translation; reference_datetime and
secondary_datetime are the values read from the identification group of
the source file, and file_size the byte size of the opened file.  The
function derives source_file_name as the last component of the final uri
split on the slash, then injects the six provenance variables in turn; a
collision with an existing key fails the whole build. -/
def generate_kerchunk_file_store (h5Store : ZGroup)
    (final_netcdf_uri netcdf_product_version : String)
    (file_size reference_datetime secondary_datetime : Int) :
    Except InjectionError ZGroup :=
  let source_file_name := (final_netcdf_uri.splitOn "/").getLastD ""
  match _add_data_variable h5Store "netcdf_uri" (ZVal.vstr final_netcdf_uri) "str" with
  | .error e => .error e
  | .ok s1 =>
    match _add_data_variable s1 "bytes" (ZVal.vnum file_size) "float" with
    | .error e => .error e
    | .ok s2 =>
      match _add_data_variable s2 "source_file_name" (ZVal.vstr source_file_name) "str" with
      | .error e => .error e
      | .ok s3 =>
        match _add_data_variable s3 "product_version"
            (ZVal.vstr netcdf_product_version) "str" with
        | .error e => .error e
        | .ok s4 =>
          match _add_data_variable s4 "reference_datetime"
              (ZVal.vtime reference_datetime) "datetime64[ns]" with
          | .error e => .error e
          | .ok s5 =>
            match _add_data_variable s5 "secondary_datetime"
                (ZVal.vtime secondary_datetime) "datetime64[ns]" with
            | .error e => .error e
            | .ok s6 => .ok s6

/-- The group a successful _add_data_variable call leaves behind. -/
def advS (g : ZGroup) (k : String) (d : ZVal) (dt : String) : ZGroup :=
  setAttr ((k, { data := d, dtype := dt, attrs := [] }) :: g) k "_ARRAY_DIMENSIONS" []

lemma adv_ok (g : ZGroup) (k : String) (d : ZVal) (dt : String)
    (hf : g.any (fun p => p.1 == k) = false) :
    _add_data_variable g k d dt = .ok (advS g k d dt) := by
  simp [_add_data_variable, createDataset, advS, hf]

lemma lookupZ_cons (p : String × ZEntry) (g : ZGroup) (k2 : String) :
    lookupZ (p :: g) k2 = if p.1 == k2 then some p.2 else lookupZ g k2 := by
  simp only [lookupZ, List.find?]
  cases hpk : (p.1 == k2) <;> simp [hpk]

lemma lookupZ_setAttr_other {k2 k : String} (h : ¬ k2 = k) (g : ZGroup) (a : String)
    (v : List String) : lookupZ (setAttr g k a v) k2 = lookupZ g k2 := by
  induction g with
  | nil => rfl
  | cons p g ih =>
      simp only [setAttr, List.map_cons]
      by_cases hpk : (p.1 == k) = true
      · have hp1 : p.1 = k := by simpa using hpk
        have h2 : (p.1 == k2) = false := by
          simp only [beq_eq_false_iff_ne, ne_eq, hp1]
          exact fun e => h e.symm
        rw [if_pos hpk, lookupZ_cons, lookupZ_cons]
        simp only [h2, Bool.false_eq_true, if_false]
        simpa [setAttr] using ih
      · rw [if_neg hpk, lookupZ_cons, lookupZ_cons]
        by_cases h2 : (p.1 == k2) = true
        · simp only [h2, if_true]
        · simp only [h2, Bool.false_eq_true, if_false]
          simpa [setAttr] using ih

lemma lookupZ_advS_same (g : ZGroup) (k : String) (d : ZVal) (dt : String) :
    lookupZ (advS g k d dt) k =
      some { data := d, dtype := dt, attrs := [("_ARRAY_DIMENSIONS", [])] } := by
  simp [advS, setAttr, lookupZ, List.find?]

lemma lookupZ_advS_other {k2 k : String} (h : ¬ k2 = k) (g : ZGroup) (d : ZVal)
    (dt : String) : lookupZ (advS g k d dt) k2 = lookupZ g k2 := by
  have hk : (k == k2) = false := by
    simp only [beq_eq_false_iff_ne, ne_eq]
    exact fun e => h e.symm
  unfold advS
  rw [lookupZ_setAttr_other h, lookupZ_cons]
  simp only [hk, Bool.false_eq_true, if_false]

lemma setAttr_any (k a : String) (v : List String) (k2 : String) :
    ∀ g : ZGroup, (setAttr g k a v).any (fun p => p.1 == k2) =
      g.any (fun p => p.1 == k2)
  | [] => rfl
  | p :: g => by
      have hrest := setAttr_any k a v k2 g
      simp only [setAttr, List.map_cons, List.any_cons]
      simp only [setAttr] at hrest
      rw [hrest]
      by_cases hpk : (p.1 == k) = true
      · rw [if_pos hpk]
      · rw [if_neg hpk]

lemma advS_any (g : ZGroup) (k : String) (d : ZVal) (dt : String) (k2 : String)
    (hne : (k == k2) = false) (hf : g.any (fun p => p.1 == k2) = false) :
    (advS g k d dt).any (fun p => p.1 == k2) = false := by
  unfold advS
  rw [setAttr_any]
  simp [List.any_cons, hne, hf]

/-- Claim C7: when none of the six provenance keys already exists in the
translated store, building a single file store succeeds and injects each
of the six fields as a zero dimensional variable: reading the resulting
store back at each key yields exactly the supplied scalar value together
with an _ARRAY_DIMENSIONS attribute holding the empty list, the derived
file name being the last slash separated component of the final uri.  (A
pre-existing key would instead fail the build with InjectionError, the
collision of zarr create_dataset.) -/
theorem claim_C7_provenance_injection (h5Store : ZGroup)
    (final_netcdf_uri netcdf_product_version : String)
    (file_size reference_datetime secondary_datetime : Int)
    (hfresh : ∀ p ∈ h5Store, ¬ p.1 = "netcdf_uri" ∧ ¬ p.1 = "bytes" ∧
      ¬ p.1 = "source_file_name" ∧ ¬ p.1 = "product_version" ∧
      ¬ p.1 = "reference_datetime" ∧ ¬ p.1 = "secondary_datetime") :
    ∃ out, generate_kerchunk_file_store h5Store final_netcdf_uri
        netcdf_product_version file_size reference_datetime secondary_datetime =
        .ok out ∧
      lookupZ out "netcdf_uri" =
        some { data := ZVal.vstr final_netcdf_uri, dtype := "str",
               attrs := [("_ARRAY_DIMENSIONS", [])] } ∧
      lookupZ out "bytes" =
        some { data := ZVal.vnum file_size, dtype := "float",
               attrs := [("_ARRAY_DIMENSIONS", [])] } ∧
      lookupZ out "source_file_name" =
        some { data := ZVal.vstr ((final_netcdf_uri.splitOn "/").getLastD ""),
               dtype := "str", attrs := [("_ARRAY_DIMENSIONS", [])] } ∧
      lookupZ out "product_version" =
        some { data := ZVal.vstr netcdf_product_version, dtype := "str",
               attrs := [("_ARRAY_DIMENSIONS", [])] } ∧
      lookupZ out "reference_datetime" =
        some { data := ZVal.vtime reference_datetime, dtype := "datetime64[ns]",
               attrs := [("_ARRAY_DIMENSIONS", [])] } ∧
      lookupZ out "secondary_datetime" =
        some { data := ZVal.vtime secondary_datetime, dtype := "datetime64[ns]",
               attrs := [("_ARRAY_DIMENSIONS", [])] } := by
  have hf1 : h5Store.any (fun p => p.1 == "netcdf_uri") = false := by
    rw [List.any_eq_false]
    intro p hp
    simpa using (hfresh p hp).1
  have hf2 : h5Store.any (fun p => p.1 == "bytes") = false := by
    rw [List.any_eq_false]
    intro p hp
    simpa using (hfresh p hp).2.1
  have hf3 : h5Store.any (fun p => p.1 == "source_file_name") = false := by
    rw [List.any_eq_false]
    intro p hp
    simpa using (hfresh p hp).2.2.1
  have hf4 : h5Store.any (fun p => p.1 == "product_version") = false := by
    rw [List.any_eq_false]
    intro p hp
    simpa using (hfresh p hp).2.2.2.1
  have hf5 : h5Store.any (fun p => p.1 == "reference_datetime") = false := by
    rw [List.any_eq_false]
    intro p hp
    simpa using (hfresh p hp).2.2.2.2.1
  have hf6 : h5Store.any (fun p => p.1 == "secondary_datetime") = false := by
    rw [List.any_eq_false]
    intro p hp
    simpa using (hfresh p hp).2.2.2.2.2
  set S1 := advS h5Store "netcdf_uri" (ZVal.vstr final_netcdf_uri) "str" with hS1
  set S2 := advS S1 "bytes" (ZVal.vnum file_size) "float" with hS2
  set S3 := advS S2 "source_file_name"
    (ZVal.vstr ((final_netcdf_uri.splitOn "/").getLastD "")) "str" with hS3
  set S4 := advS S3 "product_version" (ZVal.vstr netcdf_product_version) "str" with hS4
  set S5 := advS S4 "reference_datetime" (ZVal.vtime reference_datetime)
    "datetime64[ns]" with hS5
  set S6 := advS S5 "secondary_datetime" (ZVal.vtime secondary_datetime)
    "datetime64[ns]" with hS6
  have hA1b : S1.any (fun p => p.1 == "bytes") = false :=
    advS_any h5Store "netcdf_uri" (ZVal.vstr final_netcdf_uri) "str" "bytes"
      (by decide) hf2
  have hA1c : S1.any (fun p => p.1 == "source_file_name") = false :=
    advS_any h5Store "netcdf_uri" (ZVal.vstr final_netcdf_uri) "str"
      "source_file_name" (by decide) hf3
  have hA2c : S2.any (fun p => p.1 == "source_file_name") = false :=
    advS_any S1 "bytes" (ZVal.vnum file_size) "float" "source_file_name"
      (by decide) hA1c
  have hA1d : S1.any (fun p => p.1 == "product_version") = false :=
    advS_any h5Store "netcdf_uri" (ZVal.vstr final_netcdf_uri) "str"
      "product_version" (by decide) hf4
  have hA2d : S2.any (fun p => p.1 == "product_version") = false :=
    advS_any S1 "bytes" (ZVal.vnum file_size) "float" "product_version"
      (by decide) hA1d
  have hA3d : S3.any (fun p => p.1 == "product_version") = false :=
    advS_any S2 "source_file_name"
      (ZVal.vstr ((final_netcdf_uri.splitOn "/").getLastD "")) "str"
      "product_version" (by decide) hA2d
  have hA1e : S1.any (fun p => p.1 == "reference_datetime") = false :=
    advS_any h5Store "netcdf_uri" (ZVal.vstr final_netcdf_uri) "str"
      "reference_datetime" (by decide) hf5
  have hA2e : S2.any (fun p => p.1 == "reference_datetime") = false :=
    advS_any S1 "bytes" (ZVal.vnum file_size) "float" "reference_datetime"
      (by decide) hA1e
  have hA3e : S3.any (fun p => p.1 == "reference_datetime") = false :=
    advS_any S2 "source_file_name"
      (ZVal.vstr ((final_netcdf_uri.splitOn "/").getLastD "")) "str"
      "reference_datetime" (by decide) hA2e
  have hA4e : S4.any (fun p => p.1 == "reference_datetime") = false :=
    advS_any S3 "product_version" (ZVal.vstr netcdf_product_version) "str"
      "reference_datetime" (by decide) hA3e
  have hA1f : S1.any (fun p => p.1 == "secondary_datetime") = false :=
    advS_any h5Store "netcdf_uri" (ZVal.vstr final_netcdf_uri) "str"
      "secondary_datetime" (by decide) hf6
  have hA2f : S2.any (fun p => p.1 == "secondary_datetime") = false :=
    advS_any S1 "bytes" (ZVal.vnum file_size) "float" "secondary_datetime"
      (by decide) hA1f
  have hA3f : S3.any (fun p => p.1 == "secondary_datetime") = false :=
    advS_any S2 "source_file_name"
      (ZVal.vstr ((final_netcdf_uri.splitOn "/").getLastD "")) "str"
      "secondary_datetime" (by decide) hA2f
  have hA4f : S4.any (fun p => p.1 == "secondary_datetime") = false :=
    advS_any S3 "product_version" (ZVal.vstr netcdf_product_version) "str"
      "secondary_datetime" (by decide) hA3f
  have hA5f : S5.any (fun p => p.1 == "secondary_datetime") = false :=
    advS_any S4 "reference_datetime" (ZVal.vtime reference_datetime)
      "datetime64[ns]" "secondary_datetime" (by decide) hA4f
  have e1 := adv_ok h5Store "netcdf_uri" (ZVal.vstr final_netcdf_uri) "str" hf1
  have e2 := adv_ok S1 "bytes" (ZVal.vnum file_size) "float" hA1b
  have e3 := adv_ok S2 "source_file_name"
    (ZVal.vstr ((final_netcdf_uri.splitOn "/").getLastD "")) "str" hA2c
  have e4 := adv_ok S3 "product_version" (ZVal.vstr netcdf_product_version) "str" hA3d
  have e5 := adv_ok S4 "reference_datetime" (ZVal.vtime reference_datetime)
    "datetime64[ns]" hA4e
  have e6 := adv_ok S5 "secondary_datetime" (ZVal.vtime secondary_datetime)
    "datetime64[ns]" hA5f
  refine ⟨S6, ?_, ?_, ?_, ?_, ?_, ?_, ?_⟩
  · simp only [generate_kerchunk_file_store, e1, e2, e3, e4, e5, e6]
  · rw [hS6, lookupZ_advS_other (by decide), hS5, lookupZ_advS_other (by decide),
      hS4, lookupZ_advS_other (by decide), hS3, lookupZ_advS_other (by decide),
      hS2, lookupZ_advS_other (by decide), hS1, lookupZ_advS_same]
  · rw [hS6, lookupZ_advS_other (by decide), hS5, lookupZ_advS_other (by decide),
      hS4, lookupZ_advS_other (by decide), hS3, lookupZ_advS_other (by decide),
      hS2, lookupZ_advS_same]
  · rw [hS6, lookupZ_advS_other (by decide), hS5, lookupZ_advS_other (by decide),
      hS4, lookupZ_advS_other (by decide), hS3, lookupZ_advS_same]
  · rw [hS6, lookupZ_advS_other (by decide), hS5, lookupZ_advS_other (by decide),
      hS4, lookupZ_advS_same]
  · rw [hS6, lookupZ_advS_other (by decide), hS5, lookupZ_advS_same]
  · rw [hS6, lookupZ_advS_same]

/-- Claim C7 witness: a concrete translated store holding one data array
and none of the six provenance keys, with concrete metadata values. -/
theorem claim_C7_witness :
    ∃ out, generate_kerchunk_file_store
        [("short_wavelength_displacement", ⟨ZVal.vstr "blob", "f8", []⟩)]
        "s3://bucket/path/file.nc" "v0.0" 1000 1667779200000000000
        1670889600000000000 = .ok out ∧
      lookupZ out "netcdf_uri" =
        some { data := ZVal.vstr "s3://bucket/path/file.nc", dtype := "str",
               attrs := [("_ARRAY_DIMENSIONS", [])] } ∧
      lookupZ out "bytes" =
        some { data := ZVal.vnum 1000, dtype := "float",
               attrs := [("_ARRAY_DIMENSIONS", [])] } ∧
      lookupZ out "source_file_name" =
        some { data := ZVal.vstr (("s3://bucket/path/file.nc".splitOn "/").getLastD ""),
               dtype := "str", attrs := [("_ARRAY_DIMENSIONS", [])] } ∧
      lookupZ out "product_version" =
        some { data := ZVal.vstr "v0.0", dtype := "str",
               attrs := [("_ARRAY_DIMENSIONS", [])] } ∧
      lookupZ out "reference_datetime" =
        some { data := ZVal.vtime 1667779200000000000, dtype := "datetime64[ns]",
               attrs := [("_ARRAY_DIMENSIONS", [])] } ∧
      lookupZ out "secondary_datetime" =
        some { data := ZVal.vtime 1670889600000000000, dtype := "datetime64[ns]",
               attrs := [("_ARRAY_DIMENSIONS", [])] } :=
  claim_C7_provenance_injection
    [("short_wavelength_displacement", ⟨ZVal.vstr "blob", "f8", []⟩)]
    "s3://bucket/path/file.nc" "v0.0" 1000 1667779200000000000 1670889600000000000
    (by decide)

/-
The stacking algorithm itself is implemented by the external kerchunk
library (MultiZarrToZarr); only its configuration lives in the source
(generate_kerchunk_file_store_stack, src lines 126-175).  The stacker is
therefore modelled from the specification, section 4.4, at the Manifest
abstraction of section 3.
-/

/-- Descriptor of one array of a manifest: ordered dimension names, the
shape, and the dtype. -/
structure ArrayDesc where
  dims : List String
  shape : List Nat
  dtype : String
deriving DecidableEq, Repr

/-- One named array of a manifest: its descriptor and its chunk mapping
from chunk key to reference.  The key type is a parameter because the
stacker re-keys chunks with a per-input discriminator. -/
structure MArray (κ : Type) where
  name : String
  desc : ArrayDesc
  chunks : List (κ × Ref)
deriving DecidableEq, Repr

/-- A manifest as consumed by the stacker: the per-manifest identifying
label (derived file name), the named scalar fields readable in field
mode, and the arrays. -/
structure Manifest (κ : Type) where
  label : String
  fields : List (String × String)
  arrays : List (MArray κ)
deriving DecidableEq, Repr

/-- Modelled from the spec: the coordinate extraction rule of a
StackSpec, either label mode (synthesize the coordinate from the
per-manifest label and drop the named time-like dimension entirely) or
field mode (read a named field from each input). -/
inductive CoordRule where
  | label (dropDim : String)
  | field (fieldName : String)
deriving DecidableEq, Repr

/-- Modelled from the spec: the stacking configuration, with the new
concatenation dimension name, the dimensions assumed identical across
inputs, and the coordinate rule. -/
structure StackSpec where
  newDim : String
  identicalDims : List String
  rule : CoordRule
deriving DecidableEq, Repr

/-- Modelled from the spec: the failure modes of stacking. -/
inductive StackError where
  | shapeMismatch
  | coordinateExtraction
  | emptyStack
deriving DecidableEq, Repr

/-- Find the array of the given name inside a manifest. -/
def findArray (m : Manifest String) (nm : String) : Option (MArray String) :=
  m.arrays.find? (fun a => a.name == nm)

/-- Modelled from the spec: step 1 of stacking, validating that every
input carries an array for each identical dimension with one and the
same descriptor as the first input. -/
def validateIdentical (m0 : Manifest String) (rest : List (Manifest String))
    (dims : List String) : Bool :=
  dims.all (fun d =>
    match findArray m0 d with
    | none => false
    | some a0 => rest.all (fun m =>
        match findArray m d with
        | none => false
        | some a => a.desc == a0.desc))

/-- Modelled from the spec: step 2 of stacking, extracting the per-input
coordinate value along the new dimension; label mode takes the label of
each manifest, field mode reads the named field and fails with
CoordinateExtractionError when an input misses it. -/
def extractCoords (ms : List (Manifest String)) : CoordRule → Except StackError (List String)
  | .label _ => .ok (ms.map (fun m => m.label))
  | .field f =>
      ms.foldr
        (fun m acc =>
          match m.fields.find? (fun p => p.1 == f), acc with
          | some p, .ok cs => .ok (p.2 :: cs)
          | _, .error e => .error e
          | none, .ok _ => .error .coordinateExtraction)
        (.ok [])

/-- Pair every element of a list with its position, starting at i. -/
def idxFrom {α : Type} (i : Nat) : List α → List (Nat × α)
  | [] => []
  | a :: l => (i, a) :: idxFrom (i + 1) l

/-- An array taken unchanged from the first input (deduplicated identical
dimension), with its chunk keys carried over under discriminator 0. -/
def rekey0 (a : MArray String) : MArray (Nat × String) :=
  { name := a.name, desc := a.desc,
    chunks := a.chunks.map (fun p => ((0, p.1), p.2)) }

/-- Modelled from the spec: step 3 of stacking, the coordinate array of
the new dimension built from the extracted values in input order, no
sorting applied. -/
def coordArray (newDim : String) (coords : List String) : MArray (Nat × String) :=
  { name := newDim,
    desc := { dims := [newDim], shape := [coords.length], dtype := "str" },
    chunks := (idxFrom 0 coords).map (fun p => ((p.1, ""), Ref.inline p.2)) }

/-- Modelled from the spec: step 5 of stacking for one array name, the
chunks of every input re-keyed under the position of the input in the
new dimension. -/
def chunksFor (ms : List (Manifest String)) (nm : String) : List ((Nat × String) × Ref) :=
  (idxFrom 0 ms).flatMap (fun im =>
    match findArray im.2 nm with
    | some a => a.chunks.map (fun p => ((im.1, p.1), p.2))
    | none => [])

/-- Modelled from the spec: the stacked form of one remaining array, its
dimension list headed by the new dimension (with the dropped time-like
dimension removed in label mode) and its chunks gathered from every
input. -/
def stackedArray (ms : List (Manifest String)) (sp : StackSpec) (a0 : MArray String) :
    MArray (Nat × String) :=
  let keepDims : List (String × Nat) :=
    match sp.rule with
    | .label d => (a0.desc.dims.zip a0.desc.shape).filter (fun p => !(p.1 == d))
    | .field _ => a0.desc.dims.zip a0.desc.shape
  { name := a0.name,
    desc := { dims := sp.newDim :: keepDims.map (fun p => p.1),
              shape := ms.length :: keepDims.map (fun p => p.2),
              dtype := a0.desc.dtype },
    chunks := chunksFor ms a0.name }

/-- Whether an array of the first input is carried per-input into the
stacked output: identical dimensions are deduplicated instead, and in
label mode the dropped time-like dimension vanishes entirely. -/
def isStackedName (sp : StackSpec) (nm : String) : Bool :=
  !(sp.identicalDims.any (fun d => nm == d)) &&
    (match sp.rule with
     | .label d => !(nm == d)
     | .field _ => true)

/-- Modelled from the spec: the ManifestStacker (spec section 4.4),
implemented in the source by the external MultiZarrToZarr invocation of
generate_kerchunk_file_store_stack.  With zero inputs it fails with
EmptyStackError; step 1 validates the identical dimensions, failing with
ShapeMismatchError; steps 2 and 3 extract the coordinate values and
build the new coordinate array in input order; step 4 carries the
identical-dimension arrays from the first input only; step 5 re-keys
every remaining array of the first input schema with the per-input
position and prepends the new dimension to its dimension list; step 6
merges everything into the output manifest.  The operation is
all-or-nothing: an error carries no manifest. -/
def stack (ms : List (Manifest String)) (sp : StackSpec) :
    Except StackError (Manifest (Nat × String)) :=
  match ms with
  | [] => .error .emptyStack
  | m0 :: rest =>
    if validateIdentical m0 rest sp.identicalDims then
      match extractCoords (m0 :: rest) sp.rule with
      | .error e => .error e
      | .ok coords =>
          let identArrs := sp.identicalDims.filterMap
            (fun d => (findArray m0 d).map rekey0)
          let others := m0.arrays.filter (fun a => isStackedName sp a.name)
          .ok { label := m0.label, fields := [],
                arrays := coordArray sp.newDim coords ::
                  identArrs ++ others.map (stackedArray (m0 :: rest) sp) }
    else .error .shapeMismatch

/-- The configuration with which generate_kerchunk_file_store_stack
invokes the stacker (src lines 160-173): the new dimension is
source_file_name, the dimensions y and x are identical across inputs,
and label mode drops the time dimension (the module docstring notes the
time axis is dropped as a workaround). -/
def stackConfig : StackSpec :=
  { newDim := "source_file_name", identicalDims := ["y", "x"],
    rule := CoordRule.label "time" }

/-- The chunks of one position of the new dimension, with the
discriminator stripped again. -/
def slice (i : Nat) (chunks : List ((Nat × String) × Ref)) : List (String × Ref) :=
  chunks.filterMap (fun p => if p.1.1 == i then some (p.1.2, p.2) else none)

lemma idxFrom_map_snd {α β : Type} (g : α → β) :
    ∀ (i : Nat) (l : List α), (idxFrom i l).map (fun p => g p.2) = l.map g
  | _, [] => rfl
  | i, a :: l => by simp [idxFrom, idxFrom_map_snd g (i + 1) l]

lemma coordArray_values (nd : String) (ls : List String) :
    (coordArray nd ls).chunks.map (fun p => p.2) = ls.map Ref.inline := by
  simp only [coordArray, List.map_map]
  simpa [Function.comp] using idxFrom_map_snd Ref.inline 0 ls

/-- Claim C2: stacking in label mode builds the coordinate array of the
new dimension from the per-manifest labels in exactly the input order,
whatever the labels are (so no lexical sorting can be involved): the
first array of the output is the coordinate array of the new dimension,
and its chunk values are the labels of the inputs in input order. -/
theorem claim_C2_stack_order (ms : List (Manifest String)) (sp : StackSpec)
    (d : String) (out : Manifest (Nat × String))
    (hrule : sp.rule = CoordRule.label d)
    (h : stack ms sp = .ok out) :
    out.arrays.head? = some (coordArray sp.newDim (ms.map (fun m => m.label))) ∧
    (coordArray sp.newDim (ms.map (fun m => m.label))).chunks.map (fun p => p.2) =
      ms.map (fun m => Ref.inline m.label) := by
  refine ⟨?_, by rw [coordArray_values]; simp [List.map_map, Function.comp]⟩
  cases ms with
  | nil => simp [stack] at h
  | cons m0 rest =>
      simp only [stack] at h
      by_cases hv : validateIdentical m0 rest sp.identicalDims = true
      · rw [if_pos hv, hrule] at h
        simp only [extractCoords] at h
        rw [← Except.ok.inj h]
        rfl
      · rw [if_neg hv] at h
        exact absurd h (by simp)

lemma findArray_name {m : Manifest String} {d : String} {a : MArray String}
    (h : findArray m d = some a) : a.name = d := by
  unfold findArray at h
  have := List.find?_some h
  simpa using this

lemma validate_find {m0 : Manifest String} {rest : List (Manifest String)}
    {dims : List String} {d : String}
    (hv : validateIdentical m0 rest dims = true) (hd : d ∈ dims) :
    ∃ a, findArray m0 d = some a := by
  have hall := List.all_eq_true.mp hv d hd
  cases hfind : findArray m0 d with
  | none => rw [hfind] at hall; exact absurd hall (by simp)
  | some a => exact ⟨a, rfl⟩

lemma filter_identArrs_nil {m0 : Manifest String} {d : String} {l : List String}
    (hdl : d ∉ l) :
    (l.filterMap (fun d2 => (findArray m0 d2).map rekey0)).filter
      (fun a => a.name == d) = [] := by
  rw [List.filter_eq_nil_iff]
  intro b hb
  obtain ⟨d2, hd2, hmap⟩ := List.mem_filterMap.mp hb
  cases hfind : findArray m0 d2 with
  | none => rw [hfind] at hmap; exact absurd hmap (by simp)
  | some a2 =>
      rw [hfind] at hmap
      have hb2 : b = rekey0 a2 := by simpa using hmap.symm
      have hname : b.name = d2 := by rw [hb2]; exact findArray_name hfind
      simp only [hname, ne_eq, beq_iff_eq]
      exact fun e => hdl (e ▸ hd2)

lemma filter_identArrs {m0 : Manifest String} {d : String} {a0 : MArray String} :
    ∀ l : List String, l.Nodup → d ∈ l →
      findArray m0 d = some a0 →
      (l.filterMap (fun d2 => (findArray m0 d2).map rekey0)).filter
        (fun a => a.name == d) = [rekey0 a0]
  | [], _, hd, _ => absurd hd (List.not_mem_nil d)
  | d1 :: l, hnd, hd, ha0 => by
      by_cases hd1 : d1 = d
      · subst hd1
        have hdl : d1 ∉ l := (List.nodup_cons.mp hnd).1
        simp only [List.filterMap_cons, ha0, Option.map_some']
        rw [List.filter_cons]
        have hname : (rekey0 a0).name = d1 := findArray_name ha0
        simp only [hname, beq_self_eq_true, if_true]
        rw [filter_identArrs_nil hdl]
      · have hdmem : d ∈ l := by
          cases List.mem_cons.mp hd with
          | inl e => exact absurd e.symm hd1
          | inr e => exact e
        simp only [List.filterMap_cons]
        cases hfind : findArray m0 d1 with
        | none =>
            simp only [hfind, Option.map_none']
            exact filter_identArrs l (List.nodup_cons.mp hnd).2 hdmem ha0
        | some a1 =>
            simp only [hfind, Option.map_some']
            rw [List.filter_cons]
            have hname : (rekey0 a1).name = d1 := findArray_name hfind
            have hne : ((rekey0 a1).name == d) = false := by
              simp only [hname, beq_eq_false_iff_ne, ne_eq]
              exact hd1
            simp only [hne, Bool.false_eq_true, if_false]
            exact filter_identArrs l (List.nodup_cons.mp hnd).2 hdmem ha0

/-- Claim C5: stacking any number of manifests that share an identical
dimension yields exactly one array for that dimension in the output,
namely the array of the first input (carried over unchanged, chunk keys
under discriminator 0), not one copy per input. -/
theorem claim_C5_identical_dedup (ms : List (Manifest String)) (sp : StackSpec)
    (out : Manifest (Nat × String)) (d : String)
    (hd : d ∈ sp.identicalDims) (hnd : sp.identicalDims.Nodup)
    (hnew : ¬ sp.newDim = d)
    (h : stack ms sp = .ok out) :
    ∃ m0 rest a0, ms = m0 :: rest ∧ findArray m0 d = some a0 ∧
      out.arrays.filter (fun a => a.name == d) = [rekey0 a0] := by
  cases ms with
  | nil => simp [stack] at h
  | cons m0 rest =>
      simp only [stack] at h
      by_cases hv : validateIdentical m0 rest sp.identicalDims = true
      · rw [if_pos hv] at h
        cases hco : extractCoords (m0 :: rest) sp.rule with
        | error e => rw [hco] at h; exact absurd h (by simp)
        | ok coords =>
            rw [hco] at h
            obtain ⟨a0, ha0⟩ := validate_find hv hd
            refine ⟨m0, rest, a0, rfl, ha0, ?_⟩
            rw [← Except.ok.inj h]
            simp only [List.filter_cons, List.filter_append]
            have hcname : ((coordArray sp.newDim coords).name == d) = false := by
              simp only [coordArray, beq_eq_false_iff_ne, ne_eq]
              exact hnew
            simp only [hcname, Bool.false_eq_true, if_false]
            rw [filter_identArrs sp.identicalDims hnd hd ha0]
            have hothers :
                ((m0.arrays.filter (fun a => isStackedName sp a.name)).map
                  (stackedArray (m0 :: rest) sp)).filter (fun a => a.name == d) = [] := by
              rw [List.filter_eq_nil_iff]
              intro b hb
              obtain ⟨a, ha, hab⟩ := List.mem_map.mp hb
              have hst : isStackedName sp a.name = true :=
                (List.mem_filter.mp ha).2
              have hbname : b.name = a.name := by rw [← hab]; rfl
              simp only [isStackedName, Bool.and_eq_true, Bool.not_eq_true',
                List.any_eq_false] at hst
              have := hst.1 d hd
              simp only [hbname, ne_eq, beq_iff_eq]
              intro e
              rw [e] at this
              simp at this
            rw [hothers]
            simp
      · rw [if_neg hv] at h
        exact absurd h (by simp)

/-- Claim C6: stacking two manifests whose declared descriptors for an
identical dimension differ (for instance a y dimension of length 255
against one of length 256) fails with ShapeMismatchError; the error
carries no manifest, so the operation is all-or-nothing. -/
theorem claim_C6_shape_mismatch (m1 m2 : Manifest String) (sp : StackSpec)
    (d : String) (a1 a2 : MArray String)
    (hd : d ∈ sp.identicalDims)
    (h1 : findArray m1 d = some a1) (h2 : findArray m2 d = some a2)
    (hne : ¬ a1.desc = a2.desc) :
    stack [m1, m2] sp = .error .shapeMismatch := by
  have hv : validateIdentical m1 [m2] sp.identicalDims = false := by
    rw [Bool.eq_false_iff]
    intro hv
    have hall := List.all_eq_true.mp hv d hd
    rw [h1] at hall
    simp only [List.all_cons, List.all_nil, Bool.and_true] at hall
    rw [h2] at hall
    have hdesc : a2.desc = a1.desc := by simpa using hall
    exact hne hdesc.symm
  simp only [stack, hv, Bool.false_eq_true, if_false]

/-- Arrays of the concrete witness manifests: a shared x dimension of
length 255, a shared y dimension of length 255, and a mismatching y
dimension of length 256. -/
def xW : MArray String := ⟨"x", ⟨["x"], [255], "i8"⟩, [("0", Ref.inline "xdat")]⟩

def yW : MArray String := ⟨"y", ⟨["y"], [255], "i8"⟩, [("0", Ref.inline "ydat")]⟩

def yW256 : MArray String := ⟨"y", ⟨["y"], [256], "i8"⟩, [("0", Ref.inline "ydat256")]⟩

def mW1 : Manifest String := ⟨"b", [], [xW, yW]⟩

def mW2 : Manifest String := ⟨"a", [], [xW, yW]⟩

def mW3 : Manifest String := ⟨"c", [], [xW, yW256]⟩

/-- The stacked output of the two compatible witness manifests. -/
def outW2 : Manifest (Nat × String) :=
  ⟨"b", [], [coordArray "source_file_name" ["b", "a"], rekey0 yW, rekey0 xW]⟩

/-- Claim C2 witness: two concrete manifests whose labels are in reverse
lexical order, stacked with the configuration of the source module. -/
theorem claim_C2_witness :
    outW2.arrays.head? =
      some (coordArray stackConfig.newDim ([mW1, mW2].map (fun m => m.label))) ∧
    (coordArray stackConfig.newDim ([mW1, mW2].map (fun m => m.label))).chunks.map
        (fun p => p.2) =
      [mW1, mW2].map (fun m => Ref.inline m.label) :=
  claim_C2_stack_order [mW1, mW2] stackConfig "time" outW2 rfl (by decide)

/-- Claim C5 witness: the concrete stack holds exactly one x array, the
one of the first input. -/
theorem claim_C5_witness :
    ∃ m0 rest a0, ([mW1, mW2] : List (Manifest String)) = m0 :: rest ∧
      findArray m0 "x" = some a0 ∧
      outW2.arrays.filter (fun a => a.name == "x") = [rekey0 a0] :=
  claim_C5_identical_dedup [mW1, mW2] stackConfig outW2 "x" (by decide) (by decide)
    (by decide) (by decide)

/-- Claim C6 witness: stacking the 255 and 256 sized y manifests fails
with ShapeMismatchError. -/
theorem claim_C6_witness :
    stack [mW1, mW3] stackConfig = .error .shapeMismatch :=
  claim_C6_shape_mismatch mW1 mW3 stackConfig "y" yW yW256 (by decide) (by decide)
    (by decide) (by decide)

/-- The descriptor of the displacement array of the C4 scenario: dims
time, x of 255 and y of 255, with one time step per input file. -/
def dispDesc : ArrayDesc := ⟨["time", "x", "y"], [1, 255, 255], "f8"⟩

/-- The per-file time coordinate array of the scenario. -/
def timeW : MArray String := ⟨"time", ⟨["time"], [1], "i8"⟩, [("0", Ref.inline "tdat")]⟩

/-- One scenario input manifest: the given derived file name label, a
displacement array with the given chunks, and the shared time, x and y
coordinate arrays. -/
def mkInput (lbl : String) (ch : List (String × Ref)) : Manifest String :=
  ⟨lbl, [], [⟨"displacement", dispDesc, ch⟩, timeW, xW, yW]⟩

/-- The 14 scenario inputs, with arbitrary labels and displacement
chunks. -/
def scenario (lbl : Nat → String) (ch : Nat → List (String × Ref)) :
    List (Manifest String) :=
  (List.range 14).map (fun i => mkInput (lbl i) (ch i))

/-- The stacked output of the scenario. -/
def scenarioOut (lbl : Nat → String) (ch : Nat → List (String × Ref)) :
    Manifest (Nat × String) :=
  ⟨lbl 0, [],
    [coordArray "source_file_name" ((List.range 14).map lbl),
     rekey0 yW, rekey0 xW,
     ⟨"displacement", ⟨["source_file_name", "x", "y"], [14, 255, 255], "f8"⟩,
       chunksFor (scenario lbl ch) "displacement"⟩]⟩

/-- The chunk lists of inputs j, j + 1, ..., j + n - 1, each re-keyed
under the position of its input. -/
def concatTagged (g : Nat → List (String × Ref)) (j : Nat) : Nat → List ((Nat × String) × Ref)
  | 0 => []
  | n + 1 => (g j).map (fun p => ((j, p.1), p.2)) ++ concatTagged g (j + 1) n

lemma slice_append (i : Nat) (l1 l2 : List ((Nat × String) × Ref)) :
    slice i (l1 ++ l2) = slice i l1 ++ slice i l2 := by
  simp [slice, List.filterMap_append]

lemma slice_tagged (i j : Nat) (l : List (String × Ref)) :
    slice i (l.map (fun p => ((j, p.1), p.2))) = if j = i then l else [] := by
  induction l with
  | nil => by_cases hj : j = i <;> simp [slice, hj]
  | cons p l ih =>
      by_cases hj : j = i
      · subst hj
        simp [slice, List.filterMap_cons] at ih ⊢
        exact ih
      · simp [slice, List.filterMap_cons, hj]

lemma slice_concatTagged_lt (g : Nat → List (String × Ref)) :
    ∀ (n j i : Nat), i < j → slice i (concatTagged g j n) = []
  | 0, _, _, _ => rfl
  | n + 1, j, i, hij => by
      rw [concatTagged, slice_append, slice_tagged,
        if_neg (by omega : ¬ j = i), slice_concatTagged_lt g n (j + 1) i (by omega)]
      rfl

lemma slice_concatTagged (g : Nat → List (String × Ref)) :
    ∀ (n j i : Nat), j ≤ i → i < j + n → slice i (concatTagged g j n) = g i
  | 0, j, i, hji, hin => absurd hin (by omega)
  | n + 1, j, i, hji, hin => by
      rw [concatTagged, slice_append, slice_tagged]
      by_cases hj : j = i
      · rw [if_pos hj, slice_concatTagged_lt g n (j + 1) i (by omega), hj,
          List.append_nil]
      · rw [if_neg hj, slice_concatTagged g n (j + 1) i (by omega) (by omega)]
        rfl

lemma chunksFor_scenario (lbl : Nat → String) (ch : Nat → List (String × Ref)) :
    chunksFor (scenario lbl ch) "displacement" = concatTagged ch 0 14 := rfl

/-- Claim C4: stacking the 14 scenario inputs with the configuration of
the source module succeeds and yields one manifest whose first array is
the source_file_name coordinate array with the 14 labels in input order
and declared length 14, which carries no time dimension anywhere (no
array named time, no array listing time among its dimensions), and whose
displacement array has dims source_file_name, x, y with shape 14, 255,
255 and, at each position i of the new dimension, exactly the chunks of
input i (its time dimension being dropped). -/
theorem claim_C4_scenario (lbl : Nat → String) (ch : Nat → List (String × Ref))
    (_huniq : ∀ i < 14, ∀ j < 14, lbl i = lbl j → i = j) :
    ∃ out, stack (scenario lbl ch) stackConfig = .ok out ∧
      out.arrays.head? =
        some (coordArray "source_file_name" ((List.range 14).map lbl)) ∧
      (coordArray "source_file_name" ((List.range 14).map lbl)).desc.shape = [14] ∧
      (∀ a ∈ out.arrays, ¬ a.name = "time" ∧ "time" ∉ a.desc.dims) ∧
      ∃ da, out.arrays.find? (fun a => a.name == "displacement") = some da ∧
        da.desc.dims = ["source_file_name", "x", "y"] ∧
        da.desc.shape = [14, 255, 255] ∧
        ∀ i, i < 14 → slice i da.chunks = ch i := by
  refine ⟨scenarioOut lbl ch, rfl, rfl, rfl, ?_, ?_⟩
  · intro a ha
    simp only [scenarioOut, coordArray, rekey0, yW, xW, List.mem_cons,
      List.not_mem_nil, or_false] at ha
    rcases ha with rfl | rfl | rfl | rfl <;> exact ⟨by simp, by simp⟩
  · refine ⟨⟨"displacement", ⟨["source_file_name", "x", "y"], [14, 255, 255], "f8"⟩,
      chunksFor (scenario lbl ch) "displacement"⟩, rfl, rfl, rfl, ?_⟩
    intro i hi
    rw [chunksFor_scenario]
    exact slice_concatTagged ch 14 0 i (by omega) (by omega)

/-- Claim C4 witness: concrete distinct labels and one concrete chunk
per input. -/
theorem claim_C4_witness :
    ∃ out, stack (scenario (fun i => "f" ++ toString i)
        (fun i => [("0.0.0", Ref.remote "s3" i 10)])) stackConfig = .ok out ∧
      out.arrays.head? =
        some (coordArray "source_file_name"
          ((List.range 14).map (fun i => "f" ++ toString i))) ∧
      (coordArray "source_file_name"
        ((List.range 14).map (fun i => "f" ++ toString i))).desc.shape = [14] ∧
      (∀ a ∈ out.arrays, ¬ a.name = "time" ∧ "time" ∉ a.desc.dims) ∧
      ∃ da, out.arrays.find? (fun a => a.name == "displacement") = some da ∧
        da.desc.dims = ["source_file_name", "x", "y"] ∧
        da.desc.shape = [14, 255, 255] ∧
        ∀ i, i < 14 → slice i da.chunks = [("0.0.0", Ref.remote "s3" i 10)] :=
  claim_C4_scenario (fun i => "f" ++ toString i)
    (fun i => [("0.0.0", Ref.remote "s3" i 10)]) (by decide)

end AsfKerchunk
